import Mathlib

/-!
Shallow embedding of the placeholder-expansion engine in src/template.rs of
circus-backend, together with theorems checking the specification's claims
about it.

Buffers, paths and titles are Rust strings; we model them as Lean strings and
do all span arithmetic in character indices (the source uses byte indices, but
both delimiters and all sigils are ASCII, so the arithmetic is isomorphic).
The asynchronous resolvers are modelled as pure functions: the storage
collaborator is a table of article rows, and the filesystem / markup
collaborators are oracle functions supplied in an environment record.
Rust panics (unchecked indexing, overflow-checked usize subtraction,
tokio_postgres Row::get on an absent column) are modelled by an explicit
fault outcome, distinct from the recoverable error outcome of Result.
-/

namespace Circus

/-- An article row of the storage table, with the creation date already
formatted yyyy-mm-dd as the queries in template.rs read it
(ordering by the formatted date coincides with ordering by the date). -/
structure Article where
  title : String
  path : String
  date : String
  author : String
deriving DecidableEq

/-- Modelled from the spec: the error kinds of crate::error::Error that
template.rs can produce (error.rs is not among the shown sources).
invalidPath is the sandbox validator's rejection, resourceNotFound is
Error::ResourceNotFound with the offending path, parseError is a
ParseIntError from a numeric suffix, ioError a failed file read, and the
storage errors are tokio_postgres row-count violations of query_one /
query_opt. -/
inductive Error where
  | invalidPath (path : String)
  | resourceNotFound (path : String)
  | parseError
  | ioError (path : String)
  | storageExactlyOne
  | storageAtMostOne
deriving DecidableEq

/-- Modelled from the spec: the filesystem and markup collaborators of §6
(path.rs and the pulldown_cmark renderer are external to template.rs).
validate is PublicPath::try_from (returns the verified path or rejects),
fileExists is PublicPath::exists on the verified path, readFile is
fs::read_to_string, isMd tests extension() == Some("md"), and render is the
Markdown-to-HTML renderer. -/
structure Env where
  validate : String → Option String
  fileExists : String → Bool
  readFile : String → Option String
  isMd : String → Bool
  render : String → String

/-- Outcome of one resolution or one replace_at call: a produced string /
mutated buffer, a recoverable propagated error, or a Rust panic. -/
inductive Outcome where
  | ok (text : String)
  | err (e : Error)
  | fault
deriving DecidableEq

/-- Outcome of the search_replace driver loop: final buffer, an error
together with the buffer as it stood when the error occurred, a panic, or
fuel exhaustion (the loop did not terminate within the given fuel). -/
inductive RunResult where
  | ok (buf : String)
  | err (e : Error) (buf : String)
  | fault
  | diverge
deriving DecidableEq

/-- The seven placeholder variants of template.rs's Pattern enum. -/
inductive Pattern where
  | path (p : String)
  | positional (pos : Nat)
  | articlePositional (pos : Nat)
  | previewLatest (no : Nat)
  | articleLatest (no : Nat)
  | previewTitle (t : String)
  | articleTitle (t : String)
deriving DecidableEq

/-- Boolean list-prefix test (str::starts_with on character lists). -/
def isPre : List Char → List Char → Bool
  | [], _ => true
  | _ :: _, [] => false
  | a :: as, b :: bs => a == b && isPre as bs

/-- First index at which pat occurs in hay (str::find), or none. -/
def findSubL (pat : List Char) : List Char → Option Nat
  | [] => if isPre pat [] then some 0 else none
  | c :: rest =>
    if isPre pat (c :: rest) then some 0
    else (findSubL pat rest).map (· + 1)

/-- str::find over strings, in character indices. -/
def findSub (hay pat : String) : Option Nat := findSubL pat.data hay.data

/-- s.starts_with(pre) over strings. -/
def startsWithS (s pre : String) : Bool := isPre pre.data s.data

/-- Whether pat occurs in s at index i (used to state leftmost-match). -/
def isSubAt (s pat : String) (i : Nat) : Bool := isPre pat.data (s.data.drop i)

/-- The slice s[a..] in character indices. -/
def strDrop (s : String) (n : Nat) : String := String.mk (s.data.drop n)

/-- The slice s[a..b] in character indices. -/
def strSlice (s : String) (a b : Nat) : String :=
  String.mk ((s.data.drop a).take (b - a))

/-- String::replace_range(a..b, t): splice t over the span [a, b). -/
def strSplice (s : String) (a b : Nat) (t : String) : String :=
  String.mk (s.data.take a ++ t.data ++ s.data.drop b)

/-- The opening delimiter of a placeholder. -/
def openDelim : String := "\x7b\x7b\x7b"

/-- The closing delimiter of a placeholder. -/
def closeDelim : String := "\x7d\x7d\x7d"

/-- usize::from_str strips one optional leading plus sign. -/
def stripPlus : List Char → List Char
  | '+' :: rest => rest
  | l => l

/-- Value of a string of decimal digits. -/
def digitsVal : List Char → Nat → Nat
  | [], acc => acc
  | c :: cs, acc => digitsVal cs (acc * 10 + (c.toNat - 48))

/-- pattern.parse::<usize>(): an optional leading plus then one or more
decimal digits, rejecting the empty string, non-digits, and values beyond
usize::MAX (the target's usize is 64-bit); failures become the propagated
ParseIntError. -/
def parseUsize (s : String) : Except Error Nat :=
  let l := stripPlus s.data
  if l.isEmpty then .error .parseError
  else if l.all Char.isDigit then
    let v := digitsVal l 0
    if v ≤ 18446744073709551615 then .ok v else .error .parseError
  else .error .parseError

/-- The sigil dispatch of the free function replace_at (template.rs lines
205-221): the chain of starts_with tests in source order, each numeric
variant parsing its suffix (a parse failure is propagated by the question
mark operator), and none for an unrecognized sigil (the source's final else
arm, which returns Ok(()) without touching the buffer). -/
def classify (pat : String) : Option (Except Error Pattern) :=
  if startsWithS pat "/" then some (.ok (.path (strDrop pat 1)))
  else if startsWithS pat "%" then
    some ((parseUsize (strDrop pat 1)).map .positional)
  else if startsWithS pat "article%" then
    some ((parseUsize (strDrop pat 8)).map .articlePositional)
  else if startsWithS pat "preview~" then
    some ((parseUsize (strDrop pat 8)).map .previewLatest)
  else if startsWithS pat "article~" then
    some ((parseUsize (strDrop pat 8)).map .articleLatest)
  else if startsWithS pat "preview " then
    some (.ok (.previewTitle (strDrop pat 8)))
  else if startsWithS pat "article " then
    some (.ok (.articleTitle (strDrop pat 8)))
  else none

/-- Overflow-checked usize subtraction n - 1: underflows (panics) at 0. -/
def usizeSub1 (n : Nat) : Option Nat := if n = 0 then none else some (n - 1)

/-- A database row as returned to the client: the named columns of the
query's select list, in order. -/
abbrev Row := List (String × String)

/-- tokio_postgres Row::get by column name, as a partial lookup: the caller
faults (panics) when the column is absent from the select list. -/
def rowGet (row : Row) (col : String) : Option String :=
  match row with
  | [] => none
  | (c, v) :: rest => if c == col then some v else rowGet rest col

/-- Select list "title, date, author" (the ArticlePositional and
ArticleTitle queries). -/
def selTDA (a : Article) : Row :=
  [("title", a.title), ("date", a.date), ("author", a.author)]

/-- Select list "title, path, date, author" (the PreviewLatest and
PreviewTitle queries). -/
def selTPDA (a : Article) : Row :=
  [("title", a.title), ("path", a.path), ("date", a.date), ("author", a.author)]

/-- Select list "path, title, date, author" (the ArticleLatest query). -/
def selPTDA (a : Article) : Row :=
  [("path", a.path), ("title", a.title), ("date", a.date), ("author", a.author)]

/-- Lexicographic comparison of character lists by code point, the order of
the yyyy-mm-dd date strings (which coincides with chronological order). -/
def lexLe : List Char → List Char → Bool
  | [], _ => true
  | _ :: _, [] => false
  | a :: as, b :: bs =>
    if a.toNat < b.toNat then true
    else if b.toNat < a.toNat then false
    else lexLe as bs

/-- Creation-date order on article rows. -/
def dleProp (a b : Article) : Prop := lexLe a.date.data b.date.data = true

instance : DecidableRel dleProp := fun a b =>
  inferInstanceAs (Decidable (lexLe a.date.data b.date.data = true))

/-- Modelled from the spec: "order by cdate" of the storage collaborator —
all rows sorted by creation date ascending. -/
def sortByDate (db : List Article) : List Article := List.insertionSort dleProp db

/-- Modelled from the spec: client.query_one — exactly one row must match
the key; zero or more than one matching rows is an error. -/
def query_one (sel : Article → Row) (key : Article → String) (v : String)
    (db : List Article) : Except Error Row :=
  match db.filter (fun a => key a == v) with
  | [a] => .ok (sel a)
  | _ => .error .storageExactlyOne

/-- Modelled from the spec: client.query_opt — at most one row may match;
more than one matching row is an error. -/
def query_opt (sel : Article → Row) (key : Article → String) (v : String)
    (db : List Article) : Except Error (Option Row) :=
  match db.filter (fun a => key a == v) with
  | [] => .ok none
  | [a] => .ok (some (sel a))
  | _ => .error .storageAtMostOne

/-- Modelled from the spec: client.query with "order by cdate" — all rows
sorted by creation date ascending, projected through the select list. -/
def query_all (sel : Article → Row) (db : List Article) : List Row :=
  (sortByDate db).map sel

/-- The file-backed resolution of the Path and Positional arms: validate the
path through the sandbox, read the file, and render Markdown when the
verified path has the markup extension. -/
def fileText (env : Env) (rawPath : String) : Outcome :=
  match env.validate rawPath with
  | none => .err (.invalidPath rawPath)
  | some p =>
    match env.readFile p with
    | none => .err (.ioError p)
    | some text => .ok (if env.isMd p then env.render text else text)

/-- The existence-checked file read shared by the article arms: validate,
then fail with ResourceNotFound naming the verified path when the file does
not exist, else read and optionally render Markdown. -/
def articleContents (env : Env) (rawPath : String) : Outcome :=
  match env.validate rawPath with
  | none => .err (.invalidPath rawPath)
  | some p =>
    if env.fileExists p then
      match env.readFile p with
      | none => .err (.ioError p)
      | some text => .ok (if env.isMd p then env.render text else text)
    else .err (.resourceNotFound p)

/-- The full-article markup of template.rs, built from the row's title,
date and author columns (Row::get faults when a column is absent). -/
def articleFormat (row : Row) (contents : String) : Outcome :=
  match rowGet row "title", rowGet row "date", rowGet row "author" with
  | some t, some d, some a =>
    .ok ("<article><h2>" ++ t ++ "</h2>" ++ d ++ " ~" ++ a ++ "<br/>"
      ++ contents ++ "</article>")
  | _, _, _ => .fault

/-- The preview markup of template.rs, built from the row's path, title,
date and author columns. -/
def previewFormat (row : Row) : Outcome :=
  match rowGet row "path", rowGet row "title", rowGet row "date",
      rowGet row "author" with
  | some p, some t, some d, some a =>
    .ok ("<article><h2><a href=\"" ++ p ++ "\">" ++ t ++ "</a></h2>" ++ d
      ++ " ~" ++ a ++ "</article>")
  | _, _, _, _ => .fault

/-- The text computation of Pattern::replace_at (template.rs lines 32-195):
one arm per variant, producing the replacement text, a propagated error, or
a fault where the source panics (unchecked args indexing, usize underflow,
Row::get on an absent column). -/
def Pattern.resolve (pat : Pattern) (env : Env) (db : List Article)
    (args : List String) : Outcome :=
  match pat with
  | .path p => fileText env p
  | .positional pos =>
    match usizeSub1 pos with
    | none => .fault
    | some i =>
      match args[i]? with
      | none => .fault
      | some p => fileText env p
  | .articlePositional pos =>
    match usizeSub1 pos with
    | none => .fault
    | some i =>
      match args[i]? with
      | none => .fault
      | some p =>
        match query_one selTDA Article.path p db with
        | .error e => .err e
        | .ok row =>
          match articleContents env p with
          | .ok contents => articleFormat row contents
          | .err e => .err e
          | .fault => .fault
  | .previewLatest no =>
    let rows := query_all selTPDA db
    match usizeSub1 no with
    | none => .fault
    | some i =>
      match rows[i]? with
      | none => .ok ""
      | some row => previewFormat row
  | .articleLatest no =>
    let rows := query_all selPTDA db
    match usizeSub1 no with
    | none => .fault
    | some i =>
      match rows[i]? with
      | none => .ok ""
      | some row =>
        match rowGet row "path" with
        | none => .fault
        | some p =>
          match articleContents env p with
          | .ok contents => articleFormat row contents
          | .err e => .err e
          | .fault => .fault
  | .previewTitle t =>
    match query_opt selTPDA Article.title t db with
    | .error e => .err e
    | .ok none => .ok ""
    | .ok (some row) => previewFormat row
  | .articleTitle t =>
    match query_one selTDA Article.title t db with
    | .error e => .err e
    | .ok row =>
      match rowGet row "path" with
      | none => .fault
      | some p =>
        match articleContents env p with
        | .ok contents => articleFormat row contents
        | .err e => .err e
        | .fault => .fault

/-- Pattern::replace_at: compute the replacement text, then splice it over
the consumed span [start, stop + 3) of the buffer; errors and faults leave
the buffer untouched. -/
def Pattern.replace_at (pat : Pattern) (env : Env) (db : List Article)
    (input : String) (start stop : Nat) (args : List String) : Outcome :=
  match pat.resolve env db args with
  | .ok text => .ok (strSplice input start (stop + 3) text)
  | .err e => .err e
  | .fault => .fault

/-- The free function replace_at (template.rs lines 201-226): find the
closing delimiter after start (none found leaves the buffer unchanged with
Ok), classify the text between the delimiters (an unrecognized sigil also
returns Ok unchanged; a numeric-suffix parse failure propagates), and
dispatch to Pattern::replace_at. -/
def replace_at (env : Env) (db : List Article) (input : String) (start : Nat)
    (args : List String) : Outcome :=
  match findSub (strDrop input start) closeDelim with
  | none => .ok input
  | some len =>
    match classify (strSlice input (start + 3) (start + len)) with
    | none => .ok input
    | some (.error e) => .err e
    | some (.ok pat) => pat.replace_at env db input start (start + len) args

/-- search_replace (template.rs lines 228-237): repeatedly find the first
opening delimiter in the whole buffer and run replace_at there, until no
opening delimiter remains; the loop has no other exit, so it is modelled
with explicit fuel and diverge marks fuel exhaustion. -/
def search_replace (env : Env) (db : List Article) (args : List String) :
    Nat → String → RunResult
  | 0, _ => .diverge
  | fuel + 1, input =>
    match findSub input openDelim with
    | none => .ok input
    | some idx =>
      match replace_at env db input idx args with
      | .ok buf => search_replace env db args fuel buf
      | .err e => .err e input
      | .fault => .fault

/-- A sample environment for concrete evaluations: the sandbox accepts every
path verbatim, no file exists and every read fails. -/
def envNone : Env :=
  { validate := fun p => some p
    fileExists := fun _ => false
    readFile := fun _ => none
    isMd := fun _ => false
    render := fun t => t }

/-- A sample environment whose filesystem holds one plain-text file p with
contents X. -/
def envFs : Env :=
  { validate := fun p => some p
    fileExists := fun p => p == "p"
    readFile := fun p => if p == "p" then some "X" else none
    isMd := fun _ => false
    render := fun t => t }

/-- A sample stored article backed by a Markdown file. -/
def aHello : Article := ⟨"hello", "hello.md", "2020-01-01", "A"⟩

/-- A sample stored article with the earlier creation date. -/
def aOld : Article := ⟨"T1", "p1", "2020-01-01", "A1"⟩

/-- A sample stored article with the later creation date. -/
def aNew : Article := ⟨"T2", "p2", "2020-01-02", "A2"⟩

/-- One unfolding of the driver loop at positive fuel. -/
theorem search_replace_succ (env : Env) (db : List Article) (args : List String)
    (fuel : Nat) (input : String) :
    search_replace env db args (fuel + 1) input =
      match findSub input openDelim with
      | none => .ok input
      | some idx =>
        match replace_at env db input idx args with
        | .ok buf => search_replace env db args fuel buf
        | .err e => .err e input
        | .fault => .fault := rfl

/-- A step error aborts the loop, returning the buffer as it stood. -/
theorem search_replace_of_err (env : Env) (db : List Article) (args : List String)
    (fuel : Nat) (input : String) (s : Nat) (e : Error)
    (hfind : findSub input openDelim = some s)
    (hstep : replace_at env db input s args = .err e) :
    search_replace env db args (fuel + 1) input = .err e input := by
  simp only [search_replace_succ, hfind, hstep]

/-- A step fault aborts the loop. -/
theorem search_replace_of_fault (env : Env) (db : List Article) (args : List String)
    (fuel : Nat) (input : String) (s : Nat)
    (hfind : findSub input openDelim = some s)
    (hstep : replace_at env db input s args = .fault) :
    search_replace env db args (fuel + 1) input = .fault := by
  simp only [search_replace_succ, hfind, hstep]

/-- A successful step continues the loop on the mutated buffer. -/
theorem search_replace_of_ok (env : Env) (db : List Article) (args : List String)
    (fuel : Nat) (input : String) (s : Nat) (buf : String)
    (hfind : findSub input openDelim = some s)
    (hstep : replace_at env db input s args = .ok buf) :
    search_replace env db args (fuel + 1) input = search_replace env db args fuel buf := by
  simp only [search_replace_succ, hfind, hstep]

/-- replace_at when the classified pattern is a parse failure. -/
theorem replace_at_of_classify_err (env : Env) (db : List Article) (input : String)
    (s : Nat) (args : List String) (len : Nat) (e : Error)
    (hclose : findSub (strDrop input s) closeDelim = some len)
    (hcl : classify (strSlice input (s + 3) (s + len)) = some (.error e)) :
    replace_at env db input s args = .err e := by
  simp only [replace_at, hclose, hcl]

/-- replace_at when classification yields a recognized pattern. -/
theorem replace_at_of_classify_ok (env : Env) (db : List Article) (input : String)
    (s : Nat) (args : List String) (len : Nat) (pat : Pattern)
    (hclose : findSub (strDrop input s) closeDelim = some len)
    (hcl : classify (strSlice input (s + 3) (s + len)) = some (.ok pat)) :
    replace_at env db input s args = pat.replace_at env db input s (s + len) args := by
  simp only [replace_at, hclose, hcl]

/-- findSubL really finds an occurrence: the pattern occurs at the index. -/
theorem findSubL_isPre (pat : List Char) :
    ∀ (hay : List Char) (i : Nat), findSubL pat hay = some i →
      isPre pat (hay.drop i) = true := by
  intro hay
  induction hay with
  | nil =>
    intro i h
    unfold findSubL at h
    split at h
    · cases Option.some.inj h
      simpa using ‹isPre pat [] = true›
    · exact absurd h (by simp)
  | cons c rest ih =>
    intro i h
    unfold findSubL at h
    split at h
    · cases Option.some.inj h
      simpa using ‹isPre pat (c :: rest) = true›
    · rcases Option.map_eq_some'.mp h with ⟨j, hj, hji⟩
      cases hji
      simpa using ih j hj

/-- findSubL finds the leftmost occurrence: no occurrence strictly before. -/
theorem findSubL_min (pat : List Char) :
    ∀ (hay : List Char) (i : Nat), findSubL pat hay = some i →
      ∀ j, j < i → isPre pat (hay.drop j) = false := by
  intro hay
  induction hay with
  | nil =>
    intro i h j hj
    unfold findSubL at h
    split at h
    · cases Option.some.inj h
      omega
    · exact absurd h (by simp)
  | cons c rest ih =>
    intro i h j hj
    unfold findSubL at h
    split at h
    · cases Option.some.inj h
      omega
    · rcases Option.map_eq_some'.mp h with ⟨k, hk, hki⟩
      cases hki
      cases j with
      | zero =>
        have := ‹¬ isPre pat (c :: rest) = true›
        simpa using this
      | succ j =>
        have hjk : j < k := by omega
        simpa using ih k hk j hjk

/-- The lexicographic date order is total. -/
theorem lexLe_total : ∀ (a b : List Char), lexLe a b = true ∨ lexLe b a = true := by
  intro a
  induction a with
  | nil => intro b; left; rfl
  | cons x xs ih =>
    intro b
    cases b with
    | nil => right; rfl
    | cons y ys =>
      by_cases h1 : x.toNat < y.toNat
      · left; simp [lexLe, h1]
      · by_cases h2 : y.toNat < x.toNat
        · right; simp [lexLe, h2]
        · rcases ih ys with h | h
          · left; simp [lexLe, h1, h2, h]
          · right; simp [lexLe, h1, h2, h]

/-- The lexicographic date order is transitive. -/
theorem lexLe_trans : ∀ (a b c : List Char),
    lexLe a b = true → lexLe b c = true → lexLe a c = true := by
  intro a
  induction a with
  | nil => intro b c _ _; rfl
  | cons x xs ih =>
    intro b c hab hbc
    cases b with
    | nil => exact absurd hab (by simp [lexLe])
    | cons y ys =>
      cases c with
      | nil => exact absurd hbc (by simp [lexLe])
      | cons z zs =>
        simp only [lexLe] at hab hbc ⊢
        split at hab
        · split at hbc
          · have h : x.toNat < z.toNat := by omega
            simp [h]
          · split at hbc
            · exact absurd hbc (by simp)
            · have h : x.toNat < z.toNat := by omega
              simp [h]
        · split at hab
          · exact absurd hab (by simp)
          · split at hbc
            · have h : x.toNat < z.toNat := by omega
              simp [h]
            · split at hbc
              · exact absurd hbc (by simp)
              · have h1 : ¬ x.toNat < z.toNat := by omega
                have h2 : ¬ z.toNat < x.toNat := by omega
                simpa [h1, h2] using ih ys zs hab hbc

instance : IsTotal Article dleProp :=
  ⟨fun a b => lexLe_total a.date.data b.date.data⟩

instance : IsTrans Article dleProp :=
  ⟨fun a b c => lexLe_trans a.date.data b.date.data c.date.data⟩

/-- query_one fails with the row-count storage error whenever the number of
matching rows is not exactly one. -/
theorem query_one_err (sel : Article → Row) (key : Article → String) (v : String)
    (db : List Article) (h : (db.filter (fun a => key a == v)).length ≠ 1) :
    query_one sel key v db = .error .storageExactlyOne := by
  unfold query_one
  split
  · rename_i a heq
    exact absurd (by simp [heq]) h
  · rfl

/-- Claim C1: the claim states that search_replace terminates on every input,
and in particular that an unrecognized sigil or a missing closing delimiter
cannot make the scan loop reprocess the same offset forever. The code
violates this: on such placeholders replace_at returns Ok without changing
the buffer, the loop re-finds the same opening delimiter at the same offset,
and no amount of fuel suffices — the loop diverges on the buffer
containing only an unrecognized-sigil placeholder, and likewise on a buffer
whose opening delimiter has no closing delimiter. -/
theorem c1_scan_loop_diverges :
    ∀ (env : Env) (db : List Article) (args : List String) (fuel : Nat),
      search_replace env db args fuel "\x7b\x7b\x7bx\x7d\x7d\x7d" = .diverge ∧
      search_replace env db args fuel "\x7b\x7b\x7bx" = .diverge := by
  intro env db args fuel
  induction fuel with
  | zero => exact ⟨rfl, rfl⟩
  | succ n ih =>
    refine ⟨?_, ?_⟩
    · have h : search_replace env db args (n + 1) "\x7b\x7b\x7bx\x7d\x7d\x7d"
          = search_replace env db args n "\x7b\x7b\x7bx\x7d\x7d\x7d" := rfl
      rw [h]
      exact ih.1
    · have h : search_replace env db args (n + 1) "\x7b\x7b\x7bx"
          = search_replace env db args n "\x7b\x7b\x7bx" := rfl
      rw [h]
      exact ih.2

/-- Claim C3: the claim states that a Positional or ArticlePositional index
beyond the argument list's length yields a propagated recoverable error. The
code instead performs the unchecked indexing args[pos - 1], a panic: the
resolver faults, and when such a placeholder is the leftmost one the whole
expansion faults rather than returning an error. -/
theorem c3_positional_out_of_range_faults (env : Env) (db : List Article)
    (args : List String) (input : String) (s len pos fuel : Nat)
    (h0 : pos ≠ 0) (hlen : args.length < pos)
    (hfind : findSub input openDelim = some s)
    (hclose : findSub (strDrop input s) closeDelim = some len) :
    ((Pattern.positional pos).resolve env db args = .fault ∧
     (Pattern.articlePositional pos).resolve env db args = .fault) ∧
    (classify (strSlice input (s + 3) (s + len)) = some (.ok (.positional pos)) →
      search_replace env db args (fuel + 1) input = .fault) ∧
    (classify (strSlice input (s + 3) (s + len)) = some (.ok (.articlePositional pos)) →
      search_replace env db args (fuel + 1) input = .fault) := by
  have hs : usizeSub1 pos = some (pos - 1) := by simp [usizeSub1, h0]
  have ha : args[pos - 1]? = none := List.getElem?_eq_none (by omega)
  have hres1 : (Pattern.positional pos).resolve env db args = .fault := by
    simp [Pattern.resolve, hs, ha]
  have hres2 : (Pattern.articlePositional pos).resolve env db args = .fault := by
    simp [Pattern.resolve, hs, ha]
  refine ⟨⟨hres1, hres2⟩, ?_, ?_⟩
  · intro hcl
    have hstep : replace_at env db input s args = .fault := by
      rw [replace_at_of_classify_ok env db input s args len _ hclose hcl]
      simp [Pattern.replace_at, hres1]
    exact search_replace_of_fault env db args fuel input s hfind hstep
  · intro hcl
    have hstep : replace_at env db input s args = .fault := by
      rw [replace_at_of_classify_ok env db input s args len _ hclose hcl]
      simp [Pattern.replace_at, hres2]
    exact search_replace_of_fault env db args fuel input s hfind hstep

/-- Witness for C3 at the failing input: the buffer holding one positional
placeholder with index 1 against an empty argument list makes the whole
expansion fault. -/
theorem c3_witness :
    search_replace envNone [] [] 1 "\x7b\x7b\x7b%1\x7d\x7d\x7d" = .fault :=
  (c3_positional_out_of_range_faults envNone [] [] "\x7b\x7b\x7b%1\x7d\x7d\x7d"
    0 5 1 0 (by decide) (by decide) rfl rfl).2.1 rfl

/-- Claim C4: a buffer with no occurrence of the opening delimiter is left
unchanged and the expansion succeeds; the conclusion holds for every
environment, storage table and argument list, which expresses that no
collaborator is consulted, and applying the theorem again to the unchanged
output buffer gives the claimed idempotence. -/
theorem c4_no_delimiter_noop (input : String)
    (h : findSub input openDelim = none) :
    ∀ (env : Env) (db : List Article) (args : List String) (fuel : Nat),
      search_replace env db args (fuel + 1) input = .ok input := by
  intro env db args fuel
  simp only [search_replace_succ, h]

/-- Witness for C4 on a concrete delimiter-free buffer. -/
theorem c4_witness : search_replace envNone [] [] 1 "hello" = .ok "hello" :=
  c4_no_delimiter_noop "hello" rfl envNone [] [] 0

/-- Claim C10: the numeric-suffix parser accepts the payload 0 for all four
indexed variants, and resolving any of them performs the overflow-checked
usize subtraction 0 - 1, which underflows: the resolver faults instead of
returning the empty string or a propagated error. -/
theorem c10_zero_index_underflow :
    classify "%0" = some (.ok (.positional 0)) ∧
    classify "article%0" = some (.ok (.articlePositional 0)) ∧
    classify "preview~0" = some (.ok (.previewLatest 0)) ∧
    classify "article~0" = some (.ok (.articleLatest 0)) ∧
    ∀ (env : Env) (db : List Article) (args : List String),
      (Pattern.positional 0).resolve env db args = .fault ∧
      (Pattern.articlePositional 0).resolve env db args = .fault ∧
      (Pattern.previewLatest 0).resolve env db args = .fault ∧
      (Pattern.articleLatest 0).resolve env db args = .fault :=
  ⟨rfl, rfl, rfl, rfl, fun _ _ _ => ⟨rfl, rfl, rfl, rfl⟩⟩

/-- Claim C2: the claim states that an ArticleTitle placeholder whose title
matches exactly one stored article yields ResourceNotFound when the backing
file is missing and the article markup when it is present. The code cannot
exhibit either behaviour: its ArticleTitle query selects only the title,
date and author columns, and the very next step reads the absent path
column with Row::get, which panics — so for every environment (file present
or not) the resolver faults and the whole expansion faults. -/
theorem c2_article_title_column_fault (env : Env) (db : List Article)
    (args : List String) (input t : String) (a : Article) (s len fuel : Nat)
    (hfind : findSub input openDelim = some s)
    (hclose : findSub (strDrop input s) closeDelim = some len)
    (hcl : classify (strSlice input (s + 3) (s + len)) = some (.ok (.articleTitle t)))
    (hone : db.filter (fun x => x.title == t) = [a]) :
    (Pattern.articleTitle t).resolve env db args = .fault ∧
    search_replace env db args (fuel + 1) input = .fault := by
  have h1 : query_one selTDA Article.title t db = .ok (selTDA a) := by
    unfold query_one
    rw [hone]
  have hres : (Pattern.articleTitle t).resolve env db args = .fault := by
    simp only [Pattern.resolve, h1]
    rfl
  have hstep : replace_at env db input s args = .fault := by
    rw [replace_at_of_classify_ok env db input s args len _ hclose hcl]
    simp [Pattern.replace_at, hres]
  exact ⟨hres, search_replace_of_fault env db args fuel input s hfind hstep⟩

/-- Witness for C2: a buffer holding one ArticleTitle placeholder whose
title matches the single stored article makes the expansion fault, for an
environment in which the article's backing file does not exist. -/
theorem c2_witness :
    search_replace envNone [aHello] [] 1 "\x7b\x7b\x7barticle hello\x7d\x7d\x7d" = .fault :=
  (c2_article_title_column_fault envNone [aHello] []
    "\x7b\x7b\x7barticle hello\x7d\x7d\x7d" "hello" aHello 0 16 0
    rfl rfl rfl rfl).2

/-- Claim C6: a Positional placeholder with a valid index resolves exactly
as a Path placeholder whose path is the indexed argument — the same sandbox
validation, file read, markdown decision, replacement text and error
behaviour, for every environment. -/
theorem c6_positional_matches_path (env : Env) (db : List Article)
    (args : List String) (pos : Nat) (p : String)
    (h0 : pos ≠ 0) (h : args[pos - 1]? = some p) :
    (Pattern.positional pos).resolve env db args
      = (Pattern.path p).resolve env db args := by
  have hs : usizeSub1 pos = some (pos - 1) := by simp [usizeSub1, h0]
  simp [Pattern.resolve, hs, h]

/-- Witness for C6 at index 1 with a one-element argument list. -/
theorem c6_witness :
    (Pattern.positional 1).resolve envFs [] ["p"]
      = (Pattern.path "p").resolve envFs [] ["p"] :=
  c6_positional_matches_path envFs [] ["p"] 1 "p" (by decide) rfl

/-- Claim C7: the exactly-one lookup contract. When the number of stored
rows matching the key (title for ArticleTitle, the indexed argument's path
for ArticlePositional) is not exactly one, query_one fails and the
expansion aborts with the propagated row-count storage error — never with
an empty replacement. -/
theorem c7_exactly_one_contract (env : Env) (db : List Article)
    (args : List String) (input : String) (s len fuel : Nat)
    (hfind : findSub input openDelim = some s)
    (hclose : findSub (strDrop input s) closeDelim = some len) :
    (∀ t, classify (strSlice input (s + 3) (s + len)) = some (.ok (.articleTitle t)) →
      (db.filter (fun x => x.title == t)).length ≠ 1 →
      search_replace env db args (fuel + 1) input = .err .storageExactlyOne input) ∧
    (∀ pos p,
      classify (strSlice input (s + 3) (s + len)) = some (.ok (.articlePositional pos)) →
      pos ≠ 0 → args[pos - 1]? = some p →
      (db.filter (fun x => x.path == p)).length ≠ 1 →
      search_replace env db args (fuel + 1) input = .err .storageExactlyOne input) := by
  constructor
  · intro t hcl hcount
    have hq := query_one_err selTDA Article.title t db hcount
    have hres : (Pattern.articleTitle t).resolve env db args = .err .storageExactlyOne := by
      simp only [Pattern.resolve, hq]
    have hstep : replace_at env db input s args = .err .storageExactlyOne := by
      rw [replace_at_of_classify_ok env db input s args len _ hclose hcl]
      simp [Pattern.replace_at, hres]
    exact search_replace_of_err env db args fuel input s _ hfind hstep
  · intro pos p hcl h0 harg hcount
    have hs : usizeSub1 pos = some (pos - 1) := by simp [usizeSub1, h0]
    have hq := query_one_err selTDA Article.path p db hcount
    have hres : (Pattern.articlePositional pos).resolve env db args
        = .err .storageExactlyOne := by
      simp only [Pattern.resolve, hs, harg, hq]
    have hstep : replace_at env db input s args = .err .storageExactlyOne := by
      rw [replace_at_of_classify_ok env db input s args len _ hclose hcl]
      simp [Pattern.replace_at, hres]
    exact search_replace_of_err env db args fuel input s _ hfind hstep

/-- Witness for C7: an ArticleTitle placeholder whose title matches zero
stored rows aborts the expansion with the storage error, the buffer
untouched. -/
theorem c7_witness :
    search_replace envNone [] [] 1 "\x7b\x7b\x7barticle x\x7d\x7d\x7d"
      = .err .storageExactlyOne "\x7b\x7b\x7barticle x\x7d\x7d\x7d" :=
  (c7_exactly_one_contract envNone [] [] "\x7b\x7b\x7barticle x\x7d\x7d\x7d"
    0 12 0 rfl rfl).1 "x" rfl (by decide)

/-- Counterexample for C8: the claim states that no suffix that is not a
positive integer yields a Pattern variant, but the suffix 0 is not a
positive integer and parse::<usize> accepts it, yielding a variant with
index 0 for the positional and the ranked sigils alike. -/
theorem c8_counterexample :
    classify "%0" = some (Except.ok (Pattern.positional 0)) ∧
    classify "preview~0" = some (Except.ok (Pattern.previewLatest 0)) :=
  ⟨rfl, rfl⟩

/-- Claim C8 (amended): numeric suffixes of the four indexed sigils are
parsed as unsigned integers, so 0 is accepted; a suffix that fails
unsigned-integer parsing classifies to a parse error for each of the four
sigils, and when the leftmost placeholder classifies to a parse error the
expansion aborts with that propagated error rather than silently ignoring
the placeholder. -/
theorem c8_parse_failure_propagates (env : Env) (db : List Article)
    (args : List String) (input : String) (s len fuel : Nat)
    (hfind : findSub input openDelim = some s)
    (hclose : findSub (strDrop input s) closeDelim = some len)
    (hfail : classify (strSlice input (s + 3) (s + len)) = some (.error .parseError)) :
    search_replace env db args (fuel + 1) input = .err .parseError input ∧
    ∀ (ns : String), parseUsize ns = .error .parseError →
      classify (String.mk ('%' :: ns.data)) = some (.error .parseError) ∧
      classify (String.mk ("article%".data ++ ns.data)) = some (.error .parseError) ∧
      classify (String.mk ("preview~".data ++ ns.data)) = some (.error .parseError) ∧
      classify (String.mk ("article~".data ++ ns.data)) = some (.error .parseError) := by
  constructor
  · exact search_replace_of_err env db args fuel input s _ hfind
      (replace_at_of_classify_err env db input s args len _ hclose hfail)
  · intro ns hns
    have h1 : classify (String.mk ('%' :: ns.data))
        = some ((parseUsize ns).map .positional) := rfl
    have h2 : classify (String.mk ("article%".data ++ ns.data))
        = some ((parseUsize ns).map .articlePositional) := rfl
    have h3 : classify (String.mk ("preview~".data ++ ns.data))
        = some ((parseUsize ns).map .previewLatest) := rfl
    have h4 : classify (String.mk ("article~".data ++ ns.data))
        = some ((parseUsize ns).map .articleLatest) := rfl
    rw [h1, h2, h3, h4, hns]
    exact ⟨rfl, rfl, rfl, rfl⟩

/-- Witness for C8 on a non-numeric positional suffix: the expansion aborts
with the parse error, the buffer untouched. -/
theorem c8_witness :
    search_replace envNone [] [] 1 "\x7b\x7b\x7b%x\x7d\x7d\x7d"
      = .err .parseError "\x7b\x7b\x7b%x\x7d\x7d\x7d" :=
  (c8_parse_failure_propagates envNone [] [] "\x7b\x7b\x7b%x\x7d\x7d\x7d"
    0 5 0 rfl rfl rfl).1

/-- Counterexample for C5: the claim quantifies over every PreviewLatest
placeholder and promises the empty string with no error whenever the index
is out of range, including against an empty article list; but the parser
accepts the placeholder payload preview~0, and resolving index 0 against the
empty list performs the underflowing subtraction 0 - 1 and faults — neither
the empty string nor any error. -/
theorem c5_counterexample :
    classify "preview~0" = some (Except.ok (Pattern.previewLatest 0)) ∧
    (Pattern.previewLatest 0).resolve envNone [] [] = .fault ∧
    (Pattern.previewLatest 0).resolve envNone [] [] ≠ .ok "" :=
  ⟨rfl, rfl, fun h => nomatch h⟩

/-- Claim C5 (amended, restricted to indices n at least 1): the PreviewLatest
resolver consults all stored rows ordered by creation date ascending — the
queried list is a permutation of the table sorted ascending by date — and
selects the n-th, 1-based: when position n - 1 holds row a the replacement
is the preview markup for a, and when n exceeds the list's length (in
particular against an empty table) the replacement is the empty string and
no error is returned. -/
theorem c5_preview_rank_ordering (env : Env) (db : List Article)
    (args : List String) (no : Nat) (h0 : no ≠ 0) :
    (sortByDate db).Perm db ∧
    List.Sorted dleProp (sortByDate db) ∧
    (∀ a, (sortByDate db)[no - 1]? = some a →
      (Pattern.previewLatest no).resolve env db args
        = .ok ("<article><h2><a href=\"" ++ a.path ++ "\">" ++ a.title
            ++ "</a></h2>" ++ a.date ++ " ~" ++ a.author ++ "</article>")) ∧
    ((sortByDate db).length < no →
      (Pattern.previewLatest no).resolve env db args = .ok "") := by
  have hs : usizeSub1 no = some (no - 1) := by simp [usizeSub1, h0]
  refine ⟨List.perm_insertionSort dleProp db,
    List.sorted_insertionSort dleProp db, ?_, ?_⟩
  · intro a ha
    have hrow : (query_all selTPDA db)[no - 1]? = some (selTPDA a) := by
      simp [query_all, List.getElem?_map, ha]
    simp only [Pattern.resolve, hs, hrow]
    rfl
  · intro hlen
    have hrow : (query_all selTPDA db)[no - 1]? = none := by
      have hql : (query_all selTPDA db).length = (sortByDate db).length := by
        simp [query_all]
      exact List.getElem?_eq_none (by omega)
    simp only [Pattern.resolve, hs, hrow]

/-- Witness for C5 at rank 1 over a two-row table stored in reverse date
order: the older article is selected and rendered as a preview. -/
theorem c5_witness :
    (Pattern.previewLatest 1).resolve envNone [aNew, aOld] []
      = .ok "<article><h2><a href=\"p1\">T1</a></h2>2020-01-01 ~A1</article>" :=
  (c5_preview_rank_ordering envNone [aNew, aOld] [] 1 (by decide)).2.2.1 aOld rfl

/-- Claim C9: each loop iteration selects the leftmost occurrence of the
opening delimiter by rescanning the whole current buffer (the found index
carries an occurrence and no smaller index does), and a successful
resolution splices the resolved text over exactly the consumed span
[start, end + 3) — the spliced buffer is the untouched prefix before start,
then the replacement, then the untouched suffix from end + 3 on — after
which the loop continues on the mutated buffer, rescanning from offset 0. -/
theorem c9_leftmost_exact_splice (env : Env) (db : List Article)
    (args : List String) (input : String) (s len fuel : Nat) (pat : Pattern)
    (text : String)
    (hfind : findSub input openDelim = some s)
    (hclose : findSub (strDrop input s) closeDelim = some len)
    (hcl : classify (strSlice input (s + 3) (s + len)) = some (.ok pat))
    (hres : pat.resolve env db args = .ok text) :
    (isSubAt input openDelim s = true ∧
      ∀ j, j < s → isSubAt input openDelim j = false) ∧
    replace_at env db input s args = .ok (strSplice input s (s + len + 3) text) ∧
    (strSplice input s (s + len + 3) text).data
      = input.data.take s ++ text.data ++ input.data.drop (s + len + 3) ∧
    search_replace env db args (fuel + 1) input
      = search_replace env db args fuel (strSplice input s (s + len + 3) text) := by
  have hstep : replace_at env db input s args
      = .ok (strSplice input s (s + len + 3) text) := by
    rw [replace_at_of_classify_ok env db input s args len _ hclose hcl]
    simp [Pattern.replace_at, hres]
  refine ⟨⟨?_, ?_⟩, hstep, rfl, ?_⟩
  · exact findSubL_isPre openDelim.data input.data s hfind
  · intro j hj
    exact findSubL_min openDelim.data input.data s hfind j hj
  · exact search_replace_of_ok env db args fuel input s _ hfind hstep

/-- Witness for C9: a path placeholder in the middle of a buffer is spliced
in place, preserving the byte before and the byte after the span. -/
theorem c9_witness :
    replace_at envFs [] "a\x7b\x7b\x7b/p\x7d\x7d\x7db" 1 [] = .ok "aXb" :=
  (c9_leftmost_exact_splice envFs [] [] "a\x7b\x7b\x7b/p\x7d\x7d\x7db" 1 5 0
    (.path "p") "X" rfl rfl rfl rfl).2.1

end Circus
